import Mathlib

/-!
Verification development for the scorm-again runtime engine
(`src/BaseAPI.js` together with the SCORM 1.2 subclass `Scorm12API`).

The generic engine (session lifecycle, dotted-path resolution, error
register, listener bus, commit scheduler) is embedded shallowly: JavaScript
objects become an inductive tree, the walking loops of
`_commonSetCMIValue` / `_commonGetCMIValue` become structural recursions on
the list of path segments, and the public operations become pure functions
from an explicit API state to a result together with the next state.

The CMI data-model classes (`cmi/common.js`, `cmi/scorm12_cmi.js`) and the
constants modules are not part of the sources; where their behaviour is
needed it is modelled from the spec and marked as such in the doc comment
of the corresponding definition.
-/

namespace Scorm

/-- JavaScript value slots distinguish `undefined`, `null` and a value;
the autocommit guard in `setValue` compares the timeout slot against
`undefined` with `===`, so the distinction is observable and is kept. -/
inductive JSVal (α : Type) where
  | undef : JSVal α
  | null : JSVal α
  | val : α → JSVal α
deriving DecidableEq, Repr

/-- Session lifecycle states (`global_constants.STATE_*`). -/
inductive SessionState where
  | notInitialized
  | stInitialized
  | terminated
deriving DecidableEq, Repr

/-- The success token `global_constants.SCORM_TRUE`. -/
def scormTrue : String := "true"

/-- The failure token `global_constants.SCORM_FALSE`. -/
def scormFalse : String := "false"

/-- Modelled from the spec: the per-variant error-code table
(`constants/error_codes.js` is not under the given sources).  The engine
only threads these numbers through `throwSCORMError`; each field is the
code the source looks up under the same name. -/
structure ErrorCodes where
  GENERAL : Nat
  INITIALIZED : Nat
  TERMINATED : Nat
  TERMINATION_BEFORE_INIT : Nat
  MULTIPLE_TERMINATION : Nat
  RETRIEVE_BEFORE_INIT : Nat
  RETRIEVE_AFTER_TERM : Nat
  STORE_BEFORE_INIT : Nat
  STORE_AFTER_TERM : Nat
  COMMIT_BEFORE_INIT : Nat
  COMMIT_AFTER_TERM : Nat
  UNDEFINED_DATA_MODEL : Nat
  VALUE_NOT_INITIALIZED : Nat
  READ_ONLY_ELEMENT : Nat
  TYPE_MISMATCH : Nat
  VALUE_OUT_OF_RANGE : Nat
  INVALID_SET_VALUE : Nat
  CHILDREN_ERROR : Nat
  COUNT_ERROR : Nat
deriving DecidableEq, Repr

/-- Modelled from the spec: a concrete SCORM 1.2 style code table used by
the witnesses (the real `scorm12_error_codes` module is not under the
given sources; only distinctness and non-zeroness of the codes matter to
the claims). -/
def scorm12codes : ErrorCodes :=
  { GENERAL := 101
    INITIALIZED := 101
    TERMINATED := 101
    TERMINATION_BEFORE_INIT := 301
    MULTIPLE_TERMINATION := 101
    RETRIEVE_BEFORE_INIT := 301
    RETRIEVE_AFTER_TERM := 101
    STORE_BEFORE_INIT := 301
    STORE_AFTER_TERM := 101
    COMMIT_BEFORE_INIT := 301
    COMMIT_AFTER_TERM := 101
    UNDEFINED_DATA_MODEL := 401
    VALUE_NOT_INITIALIZED := 301
    READ_ONLY_ELEMENT := 403
    TYPE_MISMATCH := 405
    VALUE_OUT_OF_RANGE := 407
    INVALID_SET_VALUE := 402
    CHILDREN_ERROR := 202
    COUNT_ERROR := 203 }

/-! ## String utilities

JavaScript string primitives used by the source (`split`, first-occurrence
`replace`, `parseInt`, unanchored regex test) are embedded as structural
recursions over character lists so that all concrete computations reduce
in the kernel. -/

/-- Auxiliary for `jsSplitChar`: accumulates the current field in reverse. -/
def splitCharAux (sep : Char) : List Char → List Char → List String
  | [], acc => [String.mk acc.reverse]
  | c :: cs, acc =>
      if c = sep then String.mk acc.reverse :: splitCharAux sep cs []
      else splitCharAux sep cs (c :: acc)

/-- JavaScript `str.split(sep)` for a single-character separator; like the
JS original it returns `[""]` on the empty string and keeps empty fields. -/
def jsSplitChar (sep : Char) (s : String) : List String :=
  splitCharAux sep s.toList []

/-- Auxiliary for `jsReplaceFirst` over character lists. -/
def replaceFirstAux (pat : List Char) : List Char → List Char
  | [] => []
  | c :: cs =>
      if pat.isPrefixOf (c :: cs) then (c :: cs).drop pat.length
      else c :: replaceFirstAux pat cs

/-- JavaScript `str.replace(pat, "")` for a string pattern: removes the
first occurrence of `pat`, if any. -/
def jsReplaceFirst (s pat : String) : String :=
  String.mk (replaceFirstAux pat.toList s.toList)

/-- Auxiliary for `jsParseInt`: reads leading decimal digits. -/
def takeDigits : List Char → Option Nat → Option Nat
  | c :: cs, acc =>
      if c.isDigit then
        takeDigits cs (some ((acc.getD 0) * 10 + (c.toNat - '0'.toNat)))
      else acc
  | [], acc => acc

/-- JavaScript `parseInt(s, 10)` restricted to the shapes the engine feeds
it (an optional leading minus sign then leading decimal digits; trailing
garbage is ignored, no digits gives `NaN`, embedded as `none`). -/
def jsParseInt (s : String) : Option Int :=
  match s.toList with
  | '-' :: rest => (takeDigits rest none).map (fun n => -(n : Int))
  | l => (takeDigits l none).map (fun n => (n : Int))

/-- One token of the regex sub-language the source uses with
`stringMatches`: a literal character or the `\d` digit class. -/
inductive PTok where
  | ch : Char → PTok
  | digit : PTok
deriving DecidableEq, Repr

/-- Pattern match at the head of a character list. -/
def matchHere : List PTok → List Char → Bool
  | [], _ => true
  | PTok.ch c :: ps, d :: ds => c = d && matchHere ps ds
  | PTok.digit :: ps, d :: ds => d.isDigit && matchHere ps ds
  | _ :: _, [] => false

/-- Unanchored regex containment over a character list. -/
def containsHere (ps : List PTok) : List Char → Bool
  | [] => matchHere ps []
  | l@(_ :: rest) => matchHere ps l || containsHere ps rest

/-- JavaScript `str.match(re)` truthiness for the unanchored patterns the
source uses (`BaseAPI.stringMatches`). -/
def containsMatch (ps : List PTok) (s : String) : Bool :=
  containsHere ps s.toList

/-- Literal part of a pattern. -/
def litPat (s : String) : List PTok :=
  s.toList.map PTok.ch

end Scorm

namespace Scorm

/-! ## Data model tree

Modelled from the spec: the CMI classes (`cmi/common.js`,
`cmi/scorm12_cmi.js`) are not under the given sources.  Per the spec a
node is a scalar leaf (typed value plus validator descriptor), a composite
(fixed map from field name to child), or an ordered collection
(`CMIArray.childArray`).  Initialization flags of the CMI classes are not
modelled: no operation embedded here observes them. -/

/-- Modelled from the spec: validator descriptor of a scalar leaf (pure
predicate per leaf type). -/
inductive VType where
  | freeText : Nat → VType
  | decRange : Nat → Nat → VType
  | vocab : List String → VType
  | identifier : Nat → VType
deriving DecidableEq, Repr

/-- Modelled from the spec: acceptance predicate of a validator
descriptor. -/
def VType.accept : VType → String → Bool
  | VType.freeText maxLen, v => v.length ≤ maxLen
  | VType.decRange lo hi, v =>
      (!v.isEmpty) && v.toList.all Char.isDigit &&
        (match jsParseInt v with
         | some n => lo ≤ n && n ≤ hi
         | none => false)
  | VType.vocab toks, v => toks.contains v
  | VType.identifier maxLen, v => v.length ≤ maxLen

/-- Modelled from the spec: the numeric code a validator rejection carries
(ValidationError code copied into the error register). -/
def VType.rejectCode (ec : ErrorCodes) : VType → Nat
  | VType.freeText _ => ec.TYPE_MISMATCH
  | VType.decRange _ _ => ec.VALUE_OUT_OF_RANGE
  | VType.vocab _ => ec.TYPE_MISMATCH
  | VType.identifier _ => ec.TYPE_MISMATCH

/-- Data model tree node. -/
inductive Node where
  | leaf : VType → Bool → String → Node
  | comp : List (String × Node) → Node
  | coll : List Node → Node

/-- Field lookup in a composite's field list. -/
def lookupField (attr : String) : List (String × Node) → Option Node
  | [] => none
  | (k, n) :: rest => if k = attr then some n else lookupField attr rest

/-- Functional update of one field in a composite's field list. -/
def updField (attr : String) (nv : Node) : List (String × Node) → List (String × Node)
  | [] => []
  | (k, n) :: rest =>
      if k = attr then (k, nv) :: rest else (k, n) :: updField attr nv rest

/-- JavaScript index read `childArray[index]` (negative or out-of-range
indices give `undefined`). -/
def listGetI (cs : List Node) (i : Int) : Option Node :=
  if i < 0 then none else cs.get? i.toNat

/-- Functional update of `childArray[index]` for an in-range index. -/
def listSetI (cs : List Node) (i : Int) (nv : Node) : List Node :=
  if i < 0 then cs else cs.set i.toNat nv

/-- A JavaScript reference as seen by the tree-walking loops: `undefined`,
a primitive string (a leaf's value), or an object (a tree node). -/
inductive JRef where
  | undef : JRef
  | str : String → JRef
  | node : Node → JRef

/-- Projection used to state claims about `getValue` results without
deciding equality of whole trees. -/
def JRef.asStr : JRef → Option String
  | JRef.str s => some s
  | _ => none

/-- JavaScript truthiness test `!refObject` on a walker reference
(`undefined` and the empty string are falsy; objects are truthy). -/
def JRef.isFalsy : JRef → Bool
  | JRef.undef => true
  | JRef.str s => s.isEmpty
  | JRef.node _ => false

/-- Property read `refObject[attribute]`: on a composite it yields the
field (a leaf surfaces as its primitive string value); anything else
yields `undefined`.  Scalar accessors of the real `CMIArray`
(`_children`, `_count`) and of primitive strings are not modelled — no
claim reads them. -/
def getPropJ : JRef → String → JRef
  | JRef.node (Node.comp fs), attr =>
      match lookupField attr fs with
      | some (Node.leaf _ _ v) => JRef.str v
      | some n => JRef.node n
      | none => JRef.undef
  | _, _ => JRef.undef

/-- `BaseAPI._checkObjectHasProperty` on a walker reference: a composite
has exactly its declared fields. -/
def hasPropJ : JRef → String → Bool
  | JRef.node (Node.comp fs), attr => (lookupField attr fs).isSome
  | _, _ => false

/-- Exceptions that can escape `setCMIValue` into `setValue`'s catch
block: a `ValidationError` carrying a code, or any other JavaScript
error. -/
inductive SetExn where
  | validation : Nat → SetExn
  | jsError : SetExn
deriving DecidableEq, Repr

/-- Modelled from the spec: the assignment `refObject[attribute] = value`
performed by `_commonSetCMIValue` at the final segment.  The real CMI
class setters run the leaf's validator and throw a `ValidationError` on a
read-only target or a rejected value; assigning over a composite or
collection field is modelled as a generic JavaScript error (spec taxonomy:
GeneralError fallback). -/
def assignJ (ec : ErrorCodes) (r : JRef) (attr value : String) :
    Except SetExn JRef :=
  match r with
  | JRef.node (Node.comp fs) =>
      match lookupField attr fs with
      | some (Node.leaf vt ro _) =>
          if ro then Except.error (SetExn.validation ec.READ_ONLY_ELEMENT)
          else if vt.accept value then
            Except.ok (JRef.node (Node.comp (updField attr (Node.leaf vt ro value) fs)))
          else Except.error (SetExn.validation (vt.rejectCode ec))
      | some _ => Except.error SetExn.jsError
      | none => Except.error SetExn.jsError
  | _ => Except.error SetExn.jsError

/-- Write an updated child reference back into a composite parent
(functional counterpart of the in-place mutation the JS walker relies
on). -/
def setPropJ (r : JRef) (attr : String) (child : JRef) : JRef :=
  match r with
  | JRef.node (Node.comp fs) =>
      match child with
      | JRef.node n => JRef.node (Node.comp (updField attr n fs))
      | JRef.str s =>
          match lookupField attr fs with
          | some (Node.leaf vt ro _) =>
              JRef.node (Node.comp (updField attr (Node.leaf vt ro s) fs))
          | _ => r
      | JRef.undef => r
  | _ => r

end Scorm

namespace Scorm

/-! ## SCORM 1.2 collection-child factory (`Scorm12API.getChildElement`) -/

/-- Modelled from the spec: a fresh `CMIObjectivesObject`. -/
def objectivesChild : Node :=
  Node.comp
    [("id", Node.leaf (VType.identifier 255) false ""),
     ("score", Node.comp
        [("raw", Node.leaf (VType.decRange 0 100) false ""),
         ("min", Node.leaf (VType.decRange 0 100) false ""),
         ("max", Node.leaf (VType.decRange 0 100) false "")]),
     ("status", Node.leaf
        (VType.vocab ["passed", "completed", "failed", "incomplete", "browsed", "not attempted"])
        false "")]

/-- Modelled from the spec: a fresh `CMIInteractionsCorrectResponsesObject`. -/
def correctResponsesChild : Node :=
  Node.comp [("pattern", Node.leaf (VType.freeText 255) false "")]

/-- Modelled from the spec: a fresh `CMIInteractionsObjectivesObject`. -/
def intObjectivesChild : Node :=
  Node.comp [("id", Node.leaf (VType.identifier 255) false "")]

/-- Modelled from the spec: a fresh `CMIInteractionsObject`. -/
def interactionsChild : Node :=
  Node.comp
    [("id", Node.leaf (VType.identifier 255) false ""),
     ("objectives", Node.coll []),
     ("time", Node.leaf (VType.freeText 255) false ""),
     ("type", Node.leaf
        (VType.vocab ["true-false", "choice", "fill-in", "matching", "performance",
                      "sequencing", "likert", "numeric"]) false ""),
     ("correct_responses", Node.coll []),
     ("weighting", Node.leaf (VType.decRange 0 100) false ""),
     ("student_response", Node.leaf (VType.freeText 255) false ""),
     ("result", Node.leaf
        (VType.vocab ["correct", "wrong", "unanticipated", "neutral"]) false ""),
     ("latency", Node.leaf (VType.freeText 255) false "")]

/-- Regex `cmi\.objectives\.\d`. -/
def patObjectives : List PTok := litPat "cmi.objectives." ++ [PTok.digit]

/-- Regex `cmi\.interactions\.\d\.correct_responses\.\d`. -/
def patIntCorrect : List PTok :=
  litPat "cmi.interactions." ++ [PTok.digit] ++ litPat ".correct_responses." ++ [PTok.digit]

/-- Regex `cmi\.interactions\.\d\.objectives\.\d`. -/
def patIntObjectives : List PTok :=
  litPat "cmi.interactions." ++ [PTok.digit] ++ litPat ".objectives." ++ [PTok.digit]

/-- Regex `cmi\.interactions\.\d`. -/
def patInteractions : List PTok := litPat "cmi.interactions." ++ [PTok.digit]

/-- Regex `\.correct_responses\.\d` (used by `_commonSetCMIValue`). -/
def patDotCorrect : List PTok :=
  litPat ".correct_responses." ++ [PTok.digit]

/-- `Scorm12API.getChildElement`: selects the fresh child to append by an
unanchored regex test over the full element path; falls through to
`undefined` (`none`) if no pattern applies.  The second branch pair is
only taken when a collection index was already created earlier in the same
walk (`foundFirstIndex`). -/
def getChildElement12 (CMIElement : String) (_value : String)
    (foundFirstIndex : Bool) : Option Node :=
  if containsMatch patObjectives CMIElement then some objectivesChild
  else if foundFirstIndex && containsMatch patIntCorrect CMIElement then
    some correctResponsesChild
  else if foundFirstIndex && containsMatch patIntObjectives CMIElement then
    some intObjectivesChild
  else if containsMatch patInteractions CMIElement then some interactionsChild
  else none

/-! ## Set walker (`BaseAPI._commonSetCMIValue`, `scorm2004 = false`) -/

/-- Result of one `_commonSetCMIValue` walk: the updated receiver (the JS
loop mutates in place, so mutations made before an exception survive),
the `returnValue`, the last `throwSCORMError` code written to the register
during the walk, and the exception aborting the walk, if any. -/
structure SetR where
  r : JRef
  ret : String
  thrown : Option Nat
  exn : Option SetExn

/-- The walking loop of `_commonSetCMIValue` for SCORM 1.2
(`scorm2004 = false`), as a recursion over the remaining path segments.
The receiver is the current `refObject`; a collection index consumes two
segments as the JS loop does with its `i++` skip.  For SCORM 1.2 the
`{target=}` branch does not apply and `validateCorrectResponse` is the
subclass's no-op, so the final segment reduces to the has-property check
followed by the validated assignment. -/
def setWalk (ec : ErrorCodes) (fullPath value : String) :
    JRef → List String → Bool → SetR
  | r, [], _ => { r := r, ret := scormFalse, thrown := none, exn := none }
  | r, [attr], _ =>
      if !hasPropJ r attr then
        { r := r, ret := scormFalse, thrown := some ec.GENERAL, exn := none }
      else
        match assignJ ec r attr value with
        | Except.ok r2 => { r := r2, ret := scormTrue, thrown := none, exn := none }
        | Except.error e =>
            { r := r, ret := scormFalse, thrown := none, exn := some e }
  | r, attr :: nxt :: rest2, ffi =>
      let r2 := getPropJ r attr
      if r2.isFalsy then
        { r := r, ret := scormFalse, thrown := some ec.GENERAL, exn := none }
      else
        match r2 with
        | JRef.node (Node.coll cs) =>
            (match jsParseInt nxt with
             | none =>
                 let res := setWalk ec fullPath value (JRef.node (Node.coll cs)) (nxt :: rest2) ffi
                 { res with r := setPropJ r attr res.r }
             | some idx =>
                 match listGetI cs idx with
                 | some item =>
                     let res := setWalk ec fullPath value (JRef.node item) rest2 ffi
                     let cs2 :=
                       match res.r with
                       | JRef.node item2 => listSetI cs idx item2
                       | _ => cs
                     { res with r := setPropJ r attr (JRef.node (Node.coll cs2)) }
                 | none =>
                     match getChildElement12 fullPath value ffi with
                     | none =>
                         let res :=
                           setWalk ec fullPath value (JRef.node (Node.coll cs)) rest2 true
                         { r := setPropJ r attr res.r, ret := res.ret,
                           thrown := res.thrown.orElse (fun _ => some ec.GENERAL),
                           exn := res.exn }
                     | some newChild =>
                         let res := setWalk ec fullPath value (JRef.node newChild) rest2 true
                         let cs2 :=
                           match res.r with
                           | JRef.node item2 => cs ++ [item2]
                           | _ => cs ++ [newChild]
                         { res with r := setPropJ r attr (JRef.node (Node.coll cs2)) })
        | _ =>
            let res := setWalk ec fullPath value r2 (nxt :: rest2) ffi
            { res with r := setPropJ r attr res.r }

/-- `_commonSetCMIValue` for SCORM 1.2 over the whole API receiver: an
empty element path returns `SCORM_FALSE` without touching the register;
otherwise the walk starts at the API object, of which only the `cmi`
field is modelled as addressable. -/
def setCMIValue12 (ec : ErrorCodes) (cmi : Node) (CMIElement value : String) : SetR :=
  if CMIElement.isEmpty then
    { r := JRef.node (Node.comp [("cmi", cmi)]), ret := scormFalse,
      thrown := none, exn := none }
  else
    setWalk ec CMIElement value (JRef.node (Node.comp [("cmi", cmi)]))
      (jsSplitChar '.' CMIElement) false

/-- Extract the updated `cmi` tree from a finished set walk. -/
def SetR.cmiOf (res : SetR) (dflt : Node) : Node :=
  match res.r with
  | JRef.node (Node.comp fs) =>
      match lookupField "cmi" fs with
      | some n => n
      | none => dflt
  | _ => dflt

end Scorm

namespace Scorm

/-! ## Get walker (`BaseAPI._commonGetCMIValue`, `scorm2004 = false`) -/

/-- Result of a `_commonGetCMIValue` walk: the value the function returns
(`undefined` on the early-return paths) and the last `throwSCORMError`
code written to the register during the walk. -/
structure GetR where
  ret : JRef
  thrown : Option Nat

/-- The after-loop epilogue of `_commonGetCMIValue`: when the walk broke
with a `null`/`undefined` `refObject`, SCORM 1.2 rewrites the register for
the `_children` / `_count` pseudo-fields and returns `undefined`;
otherwise the current `refObject` (possibly a falsy empty string) is
returned as-is. -/
def getEpilogue (ec : ErrorCodes) (r : JRef) (attr : String)
    (thrown : Option Nat) : GetR :=
  match r with
  | JRef.undef =>
      if attr = "_children" then { ret := JRef.undef, thrown := some ec.CHILDREN_ERROR }
      else if attr = "_count" then { ret := JRef.undef, thrown := some ec.COUNT_ERROR }
      else { ret := JRef.undef, thrown := thrown }
  | _ => { ret := r, thrown := thrown }

/-- The walking loop of `_commonGetCMIValue` for SCORM 1.2
(`scorm2004 = false`): no per-segment existence check except at the final
segment (early return `undefined` when the property is missing); a falsy
descendant throws the invalid-element code and breaks into the epilogue;
a collection descendant followed by a numeric segment descends into the
existing child or throws `VALUE_NOT_INITIALIZED` and breaks, returning
the collection object itself through the epilogue. -/
def getWalk (ec : ErrorCodes) : JRef → List String → GetR
  | r, [] => { ret := r, thrown := none }
  | r, [attr] =>
      if !hasPropJ r attr then { ret := JRef.undef, thrown := some ec.GENERAL }
      else
        let r2 := getPropJ r attr
        if r2.isFalsy then getEpilogue ec r2 attr (some ec.GENERAL)
        else
          match r2 with
          | JRef.node (Node.coll _) => { ret := r2, thrown := none }
          | _ => { ret := r2, thrown := none }
  | r, attr :: nxt :: rest2 =>
      let r2 := getPropJ r attr
      if r2.isFalsy then getEpilogue ec r2 attr (some ec.GENERAL)
      else
        match r2 with
        | JRef.node (Node.coll cs) =>
            (match jsParseInt nxt with
             | none => getWalk ec r2 (nxt :: rest2)
             | some idx =>
                 match listGetI cs idx with
                 | some item => getWalk ec (JRef.node item) rest2
                 | none => getEpilogue ec r2 attr (some ec.VALUE_NOT_INITIALIZED))
        | _ => getWalk ec r2 (nxt :: rest2)

/-- `_commonGetCMIValue` for SCORM 1.2 over the whole API receiver: an
empty element path is the benign no-op returning the empty string; the
walk starts at the API object, of which only the `cmi` field is modelled
as addressable. -/
def getCMIValue12 (ec : ErrorCodes) (cmi : Node) (CMIElement : String) : GetR :=
  if CMIElement.isEmpty then { ret := JRef.str "", thrown := none }
  else getWalk ec (JRef.node (Node.comp [("cmi", cmi)])) (jsSplitChar '.' CMIElement)

end Scorm

namespace Scorm

/-! ## API state, listener bus, scheduler -/

/-- The recognized settings (`BaseAPI.#settings` merged with the
`Scorm12API` defaults).  `lmsCommitUrl := none` embeds the JS default
`false`; the `http*` fields stand for the parsed response of the external
transport (`processHttpRequest`), an external collaborator. -/
structure Settings where
  autocommit : Bool := false
  autocommitSeconds : Nat := 60
  lmsCommitUrl : Option String := none
  dataCommitFormat : String := "json"
  masteryOverride : Bool := false
  httpResult : Option String := none
  httpErrorCode : Option Nat := none
deriving DecidableEq, Repr

/-- One entry of `listenerArray`; callbacks are identified by a numeric
id, their invocations are recorded as `Event`s. -/
structure Listener where
  functionName : String
  CMIElement : Option String
  cb : Nat
deriving DecidableEq, Repr

/-- One recorded callback invocation `listener.callback(CMIElement, value)`. -/
structure Event where
  cb : Nat
  element : Option String
  value : Option String
deriving DecidableEq, Repr

/-- The mutable state of one `Scorm12API` instance.  `timeout` is the
private `#timeout` slot (constructor value: `null`); `triggers` records,
for every `ScheduledCommit` ever constructed, its `#cancelled` flag, so
that cancellation of an already-removed trigger stays expressible. -/
structure APIState where
  currentState : SessionState
  lastErrorCode : Nat
  listenerArray : List Listener
  settings : Settings
  timeout : JSVal Nat
  triggers : List Bool
  cmi : Node

/-- `BaseAPI.throwSCORMError`: records the code into the register (the
message lookup and log entry are pure reads of external collaborators). -/
def throwSCORMError (s : APIState) (errorNumber : Nat) : APIState :=
  { s with lastErrorCode := errorNumber }

/-- Strict equality `listener.CMIElement === CMIElement` between the
stored filter (`null` embedded as `none`) and the notified element path
(`undefined` embedded as `none`); in JS `null === undefined` is false. -/
def optStrictEq : Option String → Option String → Bool
  | some a, some b => a = b
  | _, _ => false

/-- `BaseAPI.processListeners`: iterate `listenerArray` in order and fire
a listener when its operation name matches and it either has no (truthy)
element filter or the filter equals the notified path exactly. -/
def processListeners : List Listener → String → Option String → Option String → List Event
  | [], _, _, _ => []
  | l :: rest, functionName, CMIElement, value =>
      let functionsMatch := l.functionName = functionName
      let listenerHasCMIElement :=
        match l.CMIElement with
        | some s => !s.isEmpty
        | none => false
      let CMIElementsMatch := optStrictEq l.CMIElement CMIElement
      if functionsMatch && (!listenerHasCMIElement || CMIElementsMatch) then
        { cb := l.cb, element := CMIElement, value := value } ::
          processListeners rest functionName CMIElement value
      else processListeners rest functionName CMIElement value

end Scorm

namespace Scorm

/-- `BaseAPI.clearSCORMError(success)`: resets the register to 0 unless
the outcome is `undefined` or the failure token. -/
def clearOn (reg : Nat) : JRef → Nat
  | JRef.undef => reg
  | JRef.str s => if s = scormFalse then reg else 0
  | JRef.node _ => 0

/-- `BaseAPI.checkState`: the lifecycle guard shared by the data-access
operations; on failure it writes the corresponding code into the register
and reports `false`. -/
def checkState (s : APIState) (checkTerminated : Bool)
    (beforeInitError afterTermError : Nat) : Bool × APIState :=
  if s.currentState = SessionState.notInitialized then
    (false, throwSCORMError s beforeInitError)
  else if checkTerminated ∧ s.currentState = SessionState.terminated then
    (false, throwSCORMError s afterTermError)
  else (true, s)

/-- `BaseAPI.scheduleCommit`: constructs a fresh `ScheduledCommit`
(identified by the next `triggers` index, cancelled flag `false`) and
stores it in the `#timeout` slot; the millisecond delay has no further
observable effect in the model. -/
def scheduleCommit (s : APIState) (_when : Nat) : APIState :=
  { s with timeout := JSVal.val s.triggers.length,
           triggers := s.triggers ++ [false] }

/-- `BaseAPI.clearScheduledCommit`: if a trigger is pending, cancel it
(set its `#cancelled` flag; `clearTimeout` removes it from the host's
timer queue) and empty the slot; otherwise do nothing. -/
def clearScheduledCommit (s : APIState) : APIState :=
  match s.timeout with
  | JSVal.val i => { s with timeout := JSVal.null, triggers := s.triggers.set i true }
  | _ => s

/-- `ScheduledCommit.wrapper` for trigger `i`: when the host timer fires
it invokes `commit` only if the trigger was not cancelled.  Out-of-range
ids count as cancelled. -/
def wrapperCommits (s : APIState) (i : Nat) : Bool :=
  !(s.triggers.getD i true)

/-- Result of a string-returning public operation: the returned token,
the listener invocations it caused, and the next state. -/
structure OpR where
  ret : String
  events : List Event
  st : APIState

/-- Result of `getValue`: the returned JavaScript value, the listener
invocations, and the next state. -/
structure GetOpR where
  ret : JRef
  events : List Event
  st : APIState

/-- `BaseAPI.initialize` (the callback argument `cb` is the variant's
operation name).  In the model the callback is always supplied. -/
def initOp (ec : ErrorCodes) (cb : String) (s : APIState) : OpR :=
  if s.currentState = SessionState.stInitialized then
    let s1 := throwSCORMError s ec.INITIALIZED
    { ret := scormFalse, events := [],
      st := { s1 with lastErrorCode := clearOn s1.lastErrorCode (JRef.str scormFalse) } }
  else if s.currentState = SessionState.terminated then
    let s1 := throwSCORMError s ec.TERMINATED
    { ret := scormFalse, events := [],
      st := { s1 with lastErrorCode := clearOn s1.lastErrorCode (JRef.str scormFalse) } }
  else
    let s1 := { s with currentState := SessionState.stInitialized, lastErrorCode := 0 }
    { ret := scormTrue,
      events := processListeners s1.listenerArray cb none none,
      st := { s1 with lastErrorCode := clearOn s1.lastErrorCode (JRef.str scormTrue) } }

/-- `BaseAPI.terminate`. -/
def terminateOp (ec : ErrorCodes) (cb : String) (checkTerminated : Bool)
    (s : APIState) : OpR :=
  let g := checkState s checkTerminated ec.TERMINATION_BEFORE_INIT ec.MULTIPLE_TERMINATION
  let (ret, evts, sA) :=
    if g.1 then
      let s2 := if checkTerminated then { g.2 with lastErrorCode := 0 } else g.2
      let s3 := { s2 with currentState := SessionState.terminated }
      (scormTrue, processListeners s3.listenerArray cb none none, s3)
    else (scormFalse, [], g.2)
  { ret := ret, events := evts,
    st := { sA with lastErrorCode := clearOn sA.lastErrorCode (JRef.str ret) } }

/-- `BaseAPI.getValue` (specialized by `Scorm12API.getCMIValue`). -/
def getValueOp (ec : ErrorCodes) (cb : String) (checkTerminated : Bool)
    (CMIElement : String) (s : APIState) : GetOpR :=
  let g := checkState s checkTerminated ec.RETRIEVE_BEFORE_INIT ec.RETRIEVE_AFTER_TERM
  let (ret, evts, sA) :=
    if g.1 then
      let s2 := if checkTerminated then { g.2 with lastErrorCode := 0 } else g.2
      let w := getCMIValue12 ec s2.cmi CMIElement
      let s3 := { s2 with lastErrorCode := w.thrown.getD s2.lastErrorCode }
      (w.ret, processListeners s3.listenerArray cb (some CMIElement) none, s3)
    else (JRef.undef, [], g.2)
  { ret := ret, events := evts,
    st := { sA with lastErrorCode := clearOn sA.lastErrorCode ret } }

/-- `BaseAPI.setValue` (specialized by `Scorm12API.setCMIValue`): runs the
guard, the set walk inside the try/catch, the listener fan-out, the
autocommit arming check, and the final register clear. -/
def setValueOp (ec : ErrorCodes) (cb : String) (checkTerminated : Bool)
    (CMIElement value : String) (s : APIState) : OpR :=
  let g := checkState s checkTerminated ec.STORE_BEFORE_INIT ec.STORE_AFTER_TERM
  let (retA, evts, sA) :=
    if g.1 then
      let s2 := if checkTerminated then { g.2 with lastErrorCode := 0 } else g.2
      let w := setCMIValue12 ec s2.cmi CMIElement value
      let cmi2 := w.cmiOf s2.cmi
      let retReg :=
        match w.exn with
        | some (SetExn.validation c) => (scormFalse, c)
        | some SetExn.jsError => (scormFalse, ec.GENERAL)
        | none => (w.ret, w.thrown.getD s2.lastErrorCode)
      let s3 := { s2 with cmi := cmi2, lastErrorCode := retReg.2 }
      (retReg.1, processListeners s3.listenerArray cb (some CMIElement) (some value), s3)
    else (scormFalse, [], g.2)
  let sB :=
    if sA.lastErrorCode = 0 ∧ sA.settings.autocommit ∧ sA.timeout = JSVal.undef then
      scheduleCommit sA (sA.settings.autocommitSeconds * 1000)
    else sA
  { ret := retA, events := evts,
    st := { sB with lastErrorCode := clearOn sB.lastErrorCode (JRef.str retA) } }

/-- The value `Scorm12API.storeData` hands back to `commit`: the bare
string `SCORM_TRUE` when no destination is configured, else the parsed
transport response object. -/
inductive StoreR where
  | strv : String → StoreR
  | obj : Option String → Option Nat → StoreR
deriving DecidableEq, Repr

/-- JavaScript property read `result.errorCode` (undefined on a string). -/
def StoreR.errorCodeF : StoreR → Option Nat
  | StoreR.strv _ => none
  | StoreR.obj _ e => e

/-- JavaScript property read `result.result` (undefined on a string). -/
def StoreR.resultF : StoreR → Option String
  | StoreR.strv _ => none
  | StoreR.obj r _ => r

/-- `Scorm12API.storeData` as invoked from `commit`
(`terminateCommit = false`, so the lesson-status finalization block is
skipped): renders the tree (externally observable only as the returned
value) and either posts it to the configured destination — the external
transport's parsed response is taken from the settings — or performs the
local no-op returning the bare success token. -/
def storeData12 (s : APIState) (_terminateCommit : Bool) : StoreR :=
  match s.settings.lmsCommitUrl with
  | some _ => StoreR.obj s.settings.httpResult s.settings.httpErrorCode
  | none => StoreR.strv scormTrue

/-- `BaseAPI.commit`: always cancels any pending scheduled commit first,
then runs the guard, `storeData`, the error-code relay, the
result-token extraction, and the listener fan-out. -/
def commitOp (ec : ErrorCodes) (cb : String) (checkTerminated : Bool)
    (s : APIState) : OpR :=
  let s0 := clearScheduledCommit s
  let g := checkState s0 checkTerminated ec.COMMIT_BEFORE_INIT ec.COMMIT_AFTER_TERM
  let (ret, evts, sA) :=
    if g.1 then
      let result := storeData12 g.2 false
      let s2 :=
        match result.errorCodeF with
        | some e => if 0 < e then throwSCORMError g.2 e else g.2
        | none => g.2
      let ret :=
        match result.resultF with
        | some r => if r.isEmpty then scormFalse else r
        | none => scormFalse
      let s3 := if checkTerminated then { s2 with lastErrorCode := 0 } else s2
      (ret, processListeners s3.listenerArray cb none none, s3)
    else (scormFalse, [], g.2)
  { ret := ret, events := evts,
    st := { sA with lastErrorCode := clearOn sA.lastErrorCode (JRef.str ret) } }

/-- Token loop of `BaseAPI.on`: each space-separated token contributes one
registration; an empty split aborts the remaining tokens as the early
`return` does (unreachable, since a JS split is never empty).  The
element filter is computed — as in the source — from the WHOLE pattern
string via first-occurrence replace, not from the token. -/
def onTokens (listenerName : String) (cb : Nat) :
    List String → List Listener → List Listener
  | [], acc => acc
  | tok :: rest, acc =>
      match jsSplitChar '.' tok with
      | [] => acc
      | functionName :: restParts =>
          let CMIElement :=
            if restParts.isEmpty then (none : Option String)
            else some (jsReplaceFirst listenerName (functionName ++ "."))
          onTokens listenerName cb rest
            (acc ++ [{ functionName := functionName, CMIElement := CMIElement, cb := cb }])

/-- `BaseAPI.on` (the callback, always supplied in the model, is the id
`cb`). -/
def onReg (listenerName : String) (cb : Nat) (s : APIState) : APIState :=
  { s with listenerArray :=
      onTokens listenerName cb (jsSplitChar ' ' listenerName) s.listenerArray }

end Scorm

namespace Scorm

/-! ## Concrete SCORM 1.2 tree and base states -/

/-- Modelled from the spec: the field list of the SCORM 1.2 CMI tree
shape, parameterized by the current children of its two top-level
ordered collections. -/
def cmiFields (objs ints : List Node) : List (String × Node) :=
    [("core", Node.comp
        [("student_id", Node.leaf (VType.identifier 255) true ""),
         ("student_name", Node.leaf (VType.freeText 255) true ""),
         ("lesson_location", Node.leaf (VType.freeText 255) false ""),
         ("credit", Node.leaf (VType.vocab ["credit", "no-credit"]) true "credit"),
         ("lesson_status", Node.leaf
            (VType.vocab ["passed", "completed", "failed", "incomplete", "browsed",
                          "not attempted"]) false "not attempted"),
         ("entry", Node.leaf (VType.vocab ["ab-initio", "resume", ""]) true ""),
         ("score", Node.comp
            [("raw", Node.leaf (VType.decRange 0 100) false ""),
             ("min", Node.leaf (VType.decRange 0 100) false ""),
             ("max", Node.leaf (VType.decRange 0 100) false "")]),
         ("total_time", Node.leaf (VType.freeText 255) true "0000:00:00.00"),
         ("lesson_mode", Node.leaf (VType.vocab ["browse", "normal", "review"]) true "normal"),
         ("exit", Node.leaf (VType.vocab ["time-out", "suspend", "logout", ""]) false ""),
         ("session_time", Node.leaf (VType.freeText 255) false "00:00:00")]),
     ("suspend_data", Node.leaf (VType.freeText 4096) false ""),
     ("launch_data", Node.leaf (VType.freeText 4096) true ""),
     ("comments", Node.leaf (VType.freeText 4096) false ""),
     ("comments_from_lms", Node.leaf (VType.freeText 4096) true ""),
     ("objectives", Node.coll objs),
     ("student_data", Node.comp
        [("mastery_score", Node.leaf (VType.decRange 0 100) true ""),
         ("max_time_allowed", Node.leaf (VType.freeText 255) true ""),
         ("time_limit_action", Node.leaf (VType.freeText 255) true "")]),
     ("interactions", Node.coll ints)]

/-- Modelled from the spec: the SCORM 1.2 CMI tree (`new CMI()` of
`cmi/scorm12_cmi.js`). -/
def mkCMI (objs ints : List Node) : Node :=
  Node.comp (cmiFields objs ints)

/-- The state a fresh `Scorm12API` starts in (constructor of `BaseAPI`
plus the subclass constructor: state `NOT_INITIALIZED`, register 0, no
listeners, `#timeout = null`, a fresh CMI tree). -/
def freshState (settings : Settings) : APIState :=
  { currentState := SessionState.notInitialized
    lastErrorCode := 0
    listenerArray := []
    settings := settings
    timeout := JSVal.null
    triggers := []
    cmi := mkCMI [] [] }

/-- The children of the `cmi.interactions` collection of a state's tree
(used to observe collection growth). -/
def interactionsOf (s : APIState) : List Node :=
  match s.cmi with
  | Node.comp fs =>
      match lookupField "interactions" fs with
      | some (Node.coll cs) => cs
      | _ => []
  | _ => []

/-- The stored value of the `id` leaf of an interactions child. -/
def idValueOf : Node → Option String
  | Node.comp fs =>
      match lookupField "id" fs with
      | some (Node.leaf _ _ v) => some v
      | _ => none
  | _ => none

end Scorm

namespace Scorm

/-! ## Projection lemmas for the state transformers -/

@[simp] lemma throwSCORMError_cmi (s : APIState) (c : Nat) :
    (throwSCORMError s c).cmi = s.cmi := rfl

@[simp] lemma throwSCORMError_currentState (s : APIState) (c : Nat) :
    (throwSCORMError s c).currentState = s.currentState := rfl

@[simp] lemma throwSCORMError_listenerArray (s : APIState) (c : Nat) :
    (throwSCORMError s c).listenerArray = s.listenerArray := rfl

@[simp] lemma throwSCORMError_lastErrorCode (s : APIState) (c : Nat) :
    (throwSCORMError s c).lastErrorCode = c := rfl

@[simp] lemma throwSCORMError_timeout (s : APIState) (c : Nat) :
    (throwSCORMError s c).timeout = s.timeout := rfl

@[simp] lemma throwSCORMError_triggers (s : APIState) (c : Nat) :
    (throwSCORMError s c).triggers = s.triggers := rfl

@[simp] lemma scheduleCommit_cmi (s : APIState) (w : Nat) :
    (scheduleCommit s w).cmi = s.cmi := rfl

@[simp] lemma scheduleCommit_currentState (s : APIState) (w : Nat) :
    (scheduleCommit s w).currentState = s.currentState := rfl

@[simp] lemma scheduleCommit_lastErrorCode (s : APIState) (w : Nat) :
    (scheduleCommit s w).lastErrorCode = s.lastErrorCode := rfl

@[simp] lemma scheduleCommit_listenerArray (s : APIState) (w : Nat) :
    (scheduleCommit s w).listenerArray = s.listenerArray := rfl

@[simp] lemma clearScheduledCommit_cmi (s : APIState) :
    (clearScheduledCommit s).cmi = s.cmi := by
  cases h : s.timeout <;> simp [clearScheduledCommit, h]

@[simp] lemma clearScheduledCommit_currentState (s : APIState) :
    (clearScheduledCommit s).currentState = s.currentState := by
  cases h : s.timeout <;> simp [clearScheduledCommit, h]

@[simp] lemma clearScheduledCommit_lastErrorCode (s : APIState) :
    (clearScheduledCommit s).lastErrorCode = s.lastErrorCode := by
  cases h : s.timeout <;> simp [clearScheduledCommit, h]

@[simp] lemma clearScheduledCommit_listenerArray (s : APIState) :
    (clearScheduledCommit s).listenerArray = s.listenerArray := by
  cases h : s.timeout <;> simp [clearScheduledCommit, h]

@[simp] lemma clearScheduledCommit_settings (s : APIState) :
    (clearScheduledCommit s).settings = s.settings := by
  cases h : s.timeout <;> simp [clearScheduledCommit, h]

@[simp] lemma clearOn_false (reg : Nat) :
    clearOn reg (JRef.str scormFalse) = reg := by
  simp [clearOn]

@[simp] lemma clearOn_true (reg : Nat) :
    clearOn reg (JRef.str scormTrue) = 0 := by
  simp [clearOn, scormTrue, scormFalse]

@[simp] lemma clearOn_undef (reg : Nat) :
    clearOn reg JRef.undef = reg := rfl

end Scorm

namespace Scorm

/-! ## Shared concrete states for counterexamples and witnesses -/

/-- A freshly constructed SCORM 1.2 session after a successful
`LMSInitialize`, default settings. -/
def s12 : APIState := (initOp scorm12codes "LMSInitialize" (freshState {})).st

/-- A freshly constructed session with autocommit enabled, after a
successful `LMSInitialize`. -/
def autoState : APIState :=
  (initOp scorm12codes "LMSInitialize" (freshState { autocommit := true })).st

/-- C2: the autocommit arming condition in `setValue` compares the
`#timeout` slot against `undefined`, but the constructor initializes the
slot to `null` and `clearScheduledCommit` resets it to `null`, so after a
successful `setValue` with autocommit enabled and nothing pending the
pending-trigger slot is still unoccupied and no `ScheduledCommit` was
ever constructed — the trigger the claim (and the source's own comment
"go ahead and schedule a commit, if autocommit is turned on") promises is
never armed. -/
theorem C2_autocommit_never_arms :
    autoState.settings.autocommit = true ∧
    autoState.timeout = JSVal.null ∧
    autoState.lastErrorCode = 0 ∧
    (setValueOp scorm12codes "LMSSetValue" false "cmi.core.score.raw" "80" autoState).ret
      = scormTrue ∧
    (setValueOp scorm12codes "LMSSetValue" false "cmi.core.score.raw" "80"
        autoState).st.lastErrorCode = 0 ∧
    (setValueOp scorm12codes "LMSSetValue" false "cmi.core.score.raw" "80"
        autoState).st.timeout = JSVal.null ∧
    (setValueOp scorm12codes "LMSSetValue" false "cmi.core.score.raw" "80"
        autoState).st.triggers = [] := by
  decide

/-- C3: with no commit destination configured, `storeData` performs the
local no-op success and hands back the bare string token `SCORM_TRUE`;
but `commit` reads `result.result` off that string (which is
`undefined`), so the operation returns the failure token `'false'`
instead of `'true'` — while the error register stays 0, as the claim's
second half says. -/
theorem C3_commit_returns_false_locally :
    s12.settings.lmsCommitUrl = none ∧
    s12.currentState = SessionState.stInitialized ∧
    storeData12 s12 false = StoreR.strv scormTrue ∧
    (commitOp scorm12codes "LMSCommit" false s12).ret = scormFalse ∧
    (commitOp scorm12codes "LMSCommit" false s12).st.lastErrorCode = 0 := by
  decide

/-- C4: the same local commit shows the register invariant broken: the
operation reports the failure token `'false'`, yet the register holds 0
afterwards — a failure report whose register is neither nonzero nor the
code of any failure. -/
theorem C4_register_invariant_broken :
    (commitOp scorm12codes "LMSCommit" false s12).ret = scormFalse ∧
    scormFalse ≠ scormTrue ∧
    (commitOp scorm12codes "LMSCommit" false s12).st.lastErrorCode = 0 := by
  refine ⟨by decide, by decide, by decide⟩

end Scorm

namespace Scorm

/-- C5: a data-access operation invoked while NOT_INITIALIZED (any value
of the termination check), or while TERMINATED with the termination check
set, fails with the corresponding lifecycle code, leaves the data model
tree untouched, and notifies no listener. -/
theorem C5_guard_failure_frame (ec : ErrorCodes) (s : APIState)
    (cb elem value : String) (ct : Bool) :
    (s.currentState = SessionState.notInitialized →
      (setValueOp ec cb ct elem value s).ret = scormFalse ∧
      (setValueOp ec cb ct elem value s).events = [] ∧
      (setValueOp ec cb ct elem value s).st.cmi = s.cmi ∧
      (setValueOp ec cb ct elem value s).st.lastErrorCode = ec.STORE_BEFORE_INIT ∧
      (getValueOp ec cb ct elem s).ret = JRef.undef ∧
      (getValueOp ec cb ct elem s).events = [] ∧
      (getValueOp ec cb ct elem s).st.cmi = s.cmi ∧
      (getValueOp ec cb ct elem s).st.lastErrorCode = ec.RETRIEVE_BEFORE_INIT ∧
      (commitOp ec cb ct s).ret = scormFalse ∧
      (commitOp ec cb ct s).events = [] ∧
      (commitOp ec cb ct s).st.cmi = s.cmi ∧
      (commitOp ec cb ct s).st.lastErrorCode = ec.COMMIT_BEFORE_INIT) ∧
    (s.currentState = SessionState.terminated →
      (setValueOp ec cb true elem value s).ret = scormFalse ∧
      (setValueOp ec cb true elem value s).events = [] ∧
      (setValueOp ec cb true elem value s).st.cmi = s.cmi ∧
      (setValueOp ec cb true elem value s).st.lastErrorCode = ec.STORE_AFTER_TERM ∧
      (getValueOp ec cb true elem s).ret = JRef.undef ∧
      (getValueOp ec cb true elem s).events = [] ∧
      (getValueOp ec cb true elem s).st.cmi = s.cmi ∧
      (getValueOp ec cb true elem s).st.lastErrorCode = ec.RETRIEVE_AFTER_TERM ∧
      (commitOp ec cb true s).ret = scormFalse ∧
      (commitOp ec cb true s).events = [] ∧
      (commitOp ec cb true s).st.cmi = s.cmi ∧
      (commitOp ec cb true s).st.lastErrorCode = ec.COMMIT_AFTER_TERM) := by
  constructor
  · intro h
    simp [setValueOp, getValueOp, commitOp, checkState, h, apply_ite]
  · intro h
    simp [setValueOp, getValueOp, commitOp, checkState, h, apply_ite]

end Scorm

namespace Scorm

/-- A session that has been terminated (fresh → initialized → terminated). -/
def tState : APIState := (terminateOp scorm12codes "LMSFinish" false s12).st

/-- C5 witness: the hypotheses of the guard-failure theorem are
satisfiable; checked on a fresh (not yet initialized) session and on a
terminated one. -/
theorem C5_guard_failure_frame_witness :
    ((setValueOp scorm12codes "LMSSetValue" false "cmi.core.score.raw" "80"
        (freshState {})).ret = scormFalse ∧
      (setValueOp scorm12codes "LMSSetValue" false "cmi.core.score.raw" "80"
        (freshState {})).st.lastErrorCode = scorm12codes.STORE_BEFORE_INIT) ∧
    ((commitOp scorm12codes "LMSCommit" true tState).events = [] ∧
      (commitOp scorm12codes "LMSCommit" true tState).st.lastErrorCode =
        scorm12codes.COMMIT_AFTER_TERM) := by
  obtain ⟨a1, a2, a3, a4, a5, a6, a7, a8, a9, a10, a11, a12⟩ :=
    (C5_guard_failure_frame scorm12codes (freshState {}) "LMSSetValue"
      "cmi.core.score.raw" "80" false).1 (by decide)
  obtain ⟨b1, b2, b3, b4, b5, b6, b7, b8, b9, b10, b11, b12⟩ :=
    (C5_guard_failure_frame scorm12codes tState "LMSCommit"
      "cmi.core.score.raw" "80" true).2 (by decide)
  exact ⟨⟨a1, a4⟩, ⟨b10, b12⟩⟩

/-- Auxiliary: cancelling a trigger id in the registry leaves it reading
as cancelled, also for out-of-range ids. -/
lemma getD_set_self_true (l : List Bool) (i : Nat) :
    (l.set i true).getD i true = true := by
  rcases Nat.lt_or_ge i l.length with h | h
  · simp [List.getD_eq_getElem?_getD, List.getElem?_set_self', List.getElem?_eq_getElem h]
  · rw [List.set_eq_of_length_le h]
    simp [List.getD_eq_getElem?_getD, List.getElem?_eq_none h]

/-- Auxiliary: `commit` leaves the scheduler registry exactly as the
initial `clearScheduledCommit` call left it — no later step of the
operation touches the timeout slot or the trigger flags. -/
lemma commitOp_sched (ec : ErrorCodes) (cb : String) (ct : Bool) (s : APIState) :
    (commitOp ec cb ct s).st.timeout = (clearScheduledCommit s).timeout ∧
    (commitOp ec cb ct s).st.triggers = (clearScheduledCommit s).triggers := by
  obtain ⟨cs, reg, la, ⟨ac, asec, url, fmt, mo, hr, he⟩, tmo, tr, cm⟩ := s
  cases cs <;> cases ct <;> cases tmo <;> cases url <;> cases he <;>
    simp [commitOp, clearScheduledCommit, checkState, storeData12,
      StoreR.errorCodeF, StoreR.resultF, throwSCORMError, apply_ite] <;>
    constructor <;> split <;> simp

/-- C9: every `commit` call — the guard runs only afterwards — first
cancels any pending scheduled autocommit trigger: afterwards the slot is
empty and the previously armed trigger is flagged cancelled, so its
wrapper will not invoke the commit pipeline when the host timer fires. -/
theorem C9_commit_cancels_pending (ec : ErrorCodes) (cb : String)
    (ct : Bool) (s : APIState) (i : Nat) (h : s.timeout = JSVal.val i) :
    (commitOp ec cb ct s).st.timeout = JSVal.null ∧
    (commitOp ec cb ct s).st.triggers.getD i true = true ∧
    wrapperCommits (commitOp ec cb ct s).st i = false := by
  have hp := commitOp_sched ec cb ct s
  have h1 : (clearScheduledCommit s).timeout = JSVal.null := by
    simp [clearScheduledCommit, h]
  have h2 : (clearScheduledCommit s).triggers = s.triggers.set i true := by
    simp [clearScheduledCommit, h]
  refine ⟨hp.1.trans h1, ?_, ?_⟩
  · rw [hp.2, h2]
    exact getD_set_self_true _ _
  · have hg := getD_set_self_true s.triggers i
    unfold wrapperCommits
    rw [hp.2, h2, hg]
    rfl

end Scorm

namespace Scorm

/-- An initialized session with a manually armed scheduled commit. -/
def armedState : APIState := scheduleCommit s12 60000

/-- C9 witness: the cancellation theorem applied at a concrete armed
session. -/
theorem C9_commit_cancels_pending_witness :
    armedState.timeout = JSVal.val 0 ∧
    (commitOp scorm12codes "LMSCommit" false armedState).st.timeout = JSVal.null ∧
    wrapperCommits (commitOp scorm12codes "LMSCommit" false armedState).st 0 = false := by
  refine ⟨by decide, ?_, ?_⟩
  · exact (C9_commit_cancels_pending scorm12codes "LMSCommit" false armedState 0
      (by decide)).1
  · exact (C9_commit_cancels_pending scorm12codes "LMSCommit" false armedState 0
      (by decide)).2.2

/-- C10: calling `terminate` with the termination check disabled while
already TERMINATED succeeds again: it returns the success token, leaves
the state TERMINATED, notifies the terminate listeners once more, resets
the register to 0, and leaves the tree and listener list unchanged. -/
theorem C10_reterminate_without_check (ec : ErrorCodes) (cb : String)
    (s : APIState) (h : s.currentState = SessionState.terminated) :
    (terminateOp ec cb false s).ret = scormTrue ∧
    (terminateOp ec cb false s).st.currentState = SessionState.terminated ∧
    (terminateOp ec cb false s).st.lastErrorCode = 0 ∧
    (terminateOp ec cb false s).events = processListeners s.listenerArray cb none none ∧
    (terminateOp ec cb false s).st.cmi = s.cmi ∧
    (terminateOp ec cb false s).st.listenerArray = s.listenerArray := by
  have hni : s.currentState ≠ SessionState.notInitialized := by
    rw [h]
    intro hcon
    cases hcon
  simp [terminateOp, checkState, hni]

/-- C10 witness: re-terminating a concrete terminated session (with one
registered terminate listener, which fires a second time). -/
theorem C10_reterminate_without_check_witness :
    (terminateOp scorm12codes "LMSFinish" false
        (onReg "LMSFinish" 3 tState)).ret = scormTrue ∧
    (terminateOp scorm12codes "LMSFinish" false
        (onReg "LMSFinish" 3 tState)).events =
      processListeners (onReg "LMSFinish" 3 tState).listenerArray "LMSFinish" none none ∧
    processListeners (onReg "LMSFinish" 3 tState).listenerArray "LMSFinish" none none =
      [{ cb := 3, element := none, value := none }] := by
  refine ⟨?_, ?_, by decide⟩
  · exact (C10_reterminate_without_check scorm12codes "LMSFinish"
      (onReg "LMSFinish" 3 tState) (by decide)).1
  · exact (C10_reterminate_without_check scorm12codes "LMSFinish"
      (onReg "LMSFinish" 3 tState) (by decide)).2.2.2.1

end Scorm

namespace Scorm

/-- Auxiliary: a JavaScript split never yields an empty array. -/
lemma splitCharAux_ne_nil (sep : Char) :
    ∀ (l acc : List Char), splitCharAux sep l acc ≠ []
  | [], acc => by simp [splitCharAux]
  | c :: cs, acc => by
      by_cases h : c = sep <;> simp [splitCharAux, h, splitCharAux_ne_nil sep cs]

/-- Auxiliary: `jsSplitChar` never yields the empty list. -/
lemma jsSplitChar_ne_nil (sep : Char) (s : String) : jsSplitChar sep s ≠ [] :=
  splitCharAux_ne_nil sep s.toList []

/-- Auxiliary: closed form of the token loop of `on`: each token appends
one registration whose operation name is the token's first dot-part and
whose element filter — when the token has a path part — is the whole
pattern with the first occurrence of the operation name and a dot
removed. -/
lemma onTokens_eq (name : String) (cb : Nat) :
    ∀ (toks : List String) (acc : List Listener),
      onTokens name cb toks acc =
        acc ++ toks.map (fun tok =>
          { functionName := (jsSplitChar '.' tok).headI,
            CMIElement :=
              if (jsSplitChar '.' tok).length ≤ 1 then none
              else some (jsReplaceFirst name ((jsSplitChar '.' tok).headI ++ ".")),
            cb := cb })
  | [], acc => by simp [onTokens]
  | tok :: rest, acc => by
      rcases hsplit : jsSplitChar '.' tok with _ | ⟨fn, restParts⟩
      · exact absurd hsplit (jsSplitChar_ne_nil '.' tok)
      · have hlen : ((fn :: restParts).length ≤ 1) ↔ restParts = [] := by
          cases restParts <;> simp
        cases hrp : restParts with
        | nil =>
            simp [onTokens, hsplit, hrp, onTokens_eq name cb rest, List.headI]
        | cons a as =>
            simp [onTokens, hsplit, hrp, onTokens_eq name cb rest, List.headI]

/-- C6 counterexample: registering the two-token pattern
`"SetValue.cmi.a GetValue.cmi.b"` records, for each token, an element
path built from the WHOLE pattern (so containing text of the other
token), not the token's own path suffix `cmi.a` / `cmi.b` the claim
requires. -/
theorem C6_counterexample :
    ((onReg "SetValue.cmi.a GetValue.cmi.b" 0 (freshState {})).listenerArray.map
        Listener.CMIElement) =
      [some "cmi.a GetValue.cmi.b", some "SetValue.cmi.a cmi.b"] ∧
    ([some "cmi.a GetValue.cmi.b", some "SetValue.cmi.a cmi.b"] :
        List (Option String)) ≠ [some "cmi.a", some "cmi.b"] := by
  decide

/-- C6 amended: each space-separated token of `on(pattern, cb)` registers
the callback under its own operation name (the token's first dot-part),
in token order; but the element path recorded for a token that has a
path part is the ENTIRE pattern with the first occurrence of
`operationName + "."` deleted — for multi-token patterns this includes
text drawn from the other tokens. -/
theorem C6_on_registration_amended (pattern : String) (cb : Nat) (s : APIState) :
    (onReg pattern cb s).listenerArray =
      s.listenerArray ++
        (jsSplitChar ' ' pattern).map (fun tok =>
          { functionName := (jsSplitChar '.' tok).headI,
            CMIElement :=
              if (jsSplitChar '.' tok).length ≤ 1 then none
              else some (jsReplaceFirst pattern ((jsSplitChar '.' tok).headI ++ ".")),
            cb := cb }) := by
  simp [onReg, onTokens_eq]

end Scorm

namespace Scorm

/-- The firing condition of `processListeners` as a Boolean predicate on
one registration. -/
def listenerFires (functionName : String) (CMIElement : Option String)
    (l : Listener) : Bool :=
  (l.functionName = functionName) &&
    (!(match l.CMIElement with
       | some f => !f.isEmpty
       | none => false) ||
      optStrictEq l.CMIElement CMIElement)

/-- Auxiliary: the loop of `processListeners` equals an in-order filter by
the firing condition followed by the event construction. -/
lemma processListeners_eq_filter (fn : String) (e v : Option String) :
    ∀ ls : List Listener,
      processListeners ls fn e v =
        (ls.filter (listenerFires fn e)).map
          (fun l => { cb := l.cb, element := e, value := v })
  | [] => rfl
  | l :: rest => by
      have hfold : processListeners (l :: rest) fn e v =
          if listenerFires fn e l then
            { cb := l.cb, element := e, value := v } :: processListeners rest fn e v
          else processListeners rest fn e v := rfl
      rw [hfold]
      by_cases h : listenerFires fn e l <;>
        simp [h, List.filter_cons, processListeners_eq_filter fn e v rest]

/-- An initialized session with one listener registered via
`on("SetValue.cmi.core.score.raw", cb)` (callback id 7). -/
def cbState : APIState := onReg "SetValue.cmi.core.score.raw" 7 s12

/-- C7: listener notification fires registrations in registration order,
exactly those whose operation name matches and whose element filter is
absent (or blank) or equals the notified path exactly — existentially no
prefix or wildcard matching; concretely, the callback registered for
`SetValue.cmi.core.score.raw` fires exactly once with arguments
`("cmi.core.score.raw", "80")` on that `setValue` and never on a
`setValue` of any other path. -/
theorem C7_notify_exact_match :
    (∀ (ls : List Listener) (fn : String) (e v : Option String),
      processListeners ls fn e v =
        (ls.filter (fun l => decide (l.functionName = fn ∧
            (l.CMIElement = none ∨ l.CMIElement = some "" ∨
              (∃ p, l.CMIElement = some p ∧ e = some p))))).map
          (fun l => { cb := l.cb, element := e, value := v })) ∧
    (setValueOp scorm12codes "SetValue" false "cmi.core.score.raw" "80" cbState).events =
      [{ cb := 7, element := some "cmi.core.score.raw", value := some "80" }] ∧
    (∀ (q v2 : String), q ≠ "cmi.core.score.raw" →
      (setValueOp scorm12codes "SetValue" false q v2 cbState).events = []) := by
  refine ⟨?_, by decide, ?_⟩
  · intro ls fn e v
    rw [processListeners_eq_filter]
    congr 1
    apply List.filter_congr
    intro l _
    rcases hc : l.CMIElement with _ | f <;> rcases he : e with _ | q
    · simp [listenerFires, optStrictEq, hc, he]
    · simp [listenerFires, optStrictEq, hc, he]
    · by_cases hf : f = ""
      · simp [listenerFires, optStrictEq, hc, he, hf, String.isEmpty_iff]
      · have hie : f.isEmpty = false := by
          cases hb : f.isEmpty
          · rfl
          · exact absurd ((String.isEmpty_iff f).mp hb) hf
        simp [listenerFires, optStrictEq, hc, he, hf, hie]
    · by_cases hf : f = ""
      · simp [listenerFires, optStrictEq, hc, he, hf, String.isEmpty_iff]
      · have hie : f.isEmpty = false := by
          cases hb : f.isEmpty
          · rfl
          · exact absurd ((String.isEmpty_iff f).mp hb) hf
        by_cases hfq : f = q
        · simp [listenerFires, optStrictEq, hc, he, hf, hie, hfq]
        · simp [listenerFires, optStrictEq, hc, he, hf, hie, hfq, Ne.symm hfq]
  · intro q v2 hq
    have h1 : (setValueOp scorm12codes "SetValue" false q v2 cbState).events =
        processListeners cbState.listenerArray "SetValue" (some q) (some v2) := by
      simp [setValueOp, checkState,
        show cbState.currentState = SessionState.stInitialized from by decide]
    rw [h1,
      show cbState.listenerArray =
        [{ functionName := "SetValue", CMIElement := some "cmi.core.score.raw", cb := 7 }]
        from by decide]
    have hfold : processListeners
        [({ functionName := "SetValue", CMIElement := some "cmi.core.score.raw",
            cb := 7 } : Listener)] "SetValue" (some q) (some v2) =
        if listenerFires "SetValue" (some q)
            { functionName := "SetValue", CMIElement := some "cmi.core.score.raw", cb := 7 }
        then [{ cb := 7, element := some q, value := some v2 }]
        else [] := rfl
    have hcond : listenerFires "SetValue" (some q)
        { functionName := "SetValue", CMIElement := some "cmi.core.score.raw", cb := 7 }
        = false := by
      simp [listenerFires, optStrictEq,
        show ("cmi.core.score.raw".isEmpty) = false from by decide]
      exact fun hcon => hq hcon.symm
    rw [hfold, hcond]
    rfl

/-- C7 witness: the other-path clause of the theorem at a concrete
distinct path, via the theorem itself. -/
theorem C7_notify_exact_match_witness :
    (setValueOp scorm12codes "SetValue" false "cmi.suspend_data" "x" cbState).events = [] :=
  C7_notify_exact_match.2.2 "cmi.suspend_data" "x" (by decide)

end Scorm

namespace Scorm

/-- First write: creates `cmi.interactions.0` and sets its id. -/
def gapStep1 : OpR :=
  setValueOp scorm12codes "LMSSetValue" false "cmi.interactions.0.id" "a" s12

/-- Second write addressing index 2 while only index 0 exists. -/
def gapStep2 : OpR :=
  setValueOp scorm12codes "LMSSetValue" false "cmi.interactions.2.id" "b" gapStep1.st

/-- C1 counterexample: the gap write `cmi.interactions.2.id` with only
index 0 present does NOT fail — it succeeds with the success token,
appends a factory child at the end (length becomes 2, not 1), and leaves
the register at 0; the claim requires an undefined-element failure with
the collection unchanged. -/
theorem C1_counterexample :
    gapStep1.ret = scormTrue ∧
    (interactionsOf gapStep1.st).length = 1 ∧
    gapStep2.ret = scormTrue ∧
    (interactionsOf gapStep2.st).length = 2 ∧
    gapStep2.st.lastErrorCode = 0 ∧
    scormTrue ≠ scormFalse := by
  decide

/-- The factory interactions child with its `id` leaf set. -/
def interactionsChildWithId (v : String) : Node :=
  match interactionsChild with
  | Node.comp fs =>
      Node.comp (updField "id" (Node.leaf (VType.identifier 255) false v) fs)
  | n => n

/-- C1 amended: a `setValue` addressing `cmi.interactions.⟨k⟩.id` with
`k` at or beyond the current length (so also across a gap) does not fail:
the walker asks the per-variant factory for a child keyed on the path's
structural sub-pattern, appends it at the END of the collection (the
element's actual position is the old length, not `k`), descends into it,
stores the accepted value, and reports success; the collection grows by
exactly one. -/
theorem C1_gap_append_amended (ec : ErrorCodes) (cb v : String)
    (objs ints : List Node) (k : Nat) (s : APIState)
    (hst : s.currentState = SessionState.stInitialized)
    (hcmi : s.cmi = mkCMI objs ints)
    (hlen : ints.length ≤ k)
    (hsplit : jsSplitChar '.' ("cmi.interactions." ++ Nat.repr k ++ ".id") =
      ["cmi", "interactions", Nat.repr k, "id"])
    (hparse : jsParseInt (Nat.repr k) = some (k : Int))
    (hm1 : containsMatch patObjectives
      ("cmi.interactions." ++ Nat.repr k ++ ".id") = false)
    (hm2 : containsMatch patInteractions
      ("cmi.interactions." ++ Nat.repr k ++ ".id") = true)
    (hne : ("cmi.interactions." ++ Nat.repr k ++ ".id").isEmpty = false)
    (hv : v.length ≤ 255) :
    (setValueOp ec cb false ("cmi.interactions." ++ Nat.repr k ++ ".id") v s).ret
      = scormTrue ∧
    interactionsOf
        (setValueOp ec cb false ("cmi.interactions." ++ Nat.repr k ++ ".id") v s).st =
      ints ++ [interactionsChildWithId v] ∧
    (setValueOp ec cb false ("cmi.interactions." ++ Nat.repr k ++ ".id") v s).st.lastErrorCode
      = 0 := by
  have hget : listGetI ints ((k : Nat) : Int) = none := by
    simp [listGetI]
    exact hlen
  have hni : s.currentState ≠ SessionState.notInitialized := by
    rw [hst]
    intro hcon
    cases hcon
  have hstep1 : setWalk ec ("cmi.interactions." ++ Nat.repr k ++ ".id") v
      (JRef.node (Node.comp [("cmi", mkCMI objs ints)]))
      ["cmi", "interactions", Nat.repr k, "id"] false =
      { r := JRef.node (Node.comp [("cmi", Node.comp (updField "interactions"
          (Node.coll (ints ++ [interactionsChildWithId v])) (cmiFields objs ints)))]),
        ret := scormTrue, thrown := none, exn := none } := by
    simp [setWalk, getPropJ, mkCMI, cmiFields, lookupField, hparse, hget,
      getChildElement12, hm1, hm2, setPropJ, updField, JRef.isFalsy,
      hasPropJ, interactionsChild, assignJ, VType.accept, hv,
      interactionsChildWithId]
  have hw : setCMIValue12 ec s.cmi ("cmi.interactions." ++ Nat.repr k ++ ".id") v =
      { r := JRef.node (Node.comp [("cmi", Node.comp (updField "interactions"
          (Node.coll (ints ++ [interactionsChildWithId v])) (cmiFields objs ints)))]),
        ret := scormTrue, thrown := none, exn := none } := by
    rw [setCMIValue12, if_neg (by simp [hne]), hsplit, hcmi, hstep1]
  refine ⟨?_, ?_, ?_⟩ <;>
    simp [setValueOp, checkState, hni, hw, SetR.cmiOf, lookupField,
      interactionsOf, cmiFields, updField, apply_ite]

/-- C1 witness: the amended gap-append theorem applied at `k = 2` on an
initialized session with an empty interactions collection. -/
theorem C1_gap_append_amended_witness :
    s12.currentState = SessionState.stInitialized ∧
    ([] : List Node).length ≤ 2 ∧
    (setValueOp scorm12codes "LMSSetValue" false
        ("cmi.interactions." ++ Nat.repr 2 ++ ".id") "b" s12).ret = scormTrue ∧
    interactionsOf (setValueOp scorm12codes "LMSSetValue" false
        ("cmi.interactions." ++ Nat.repr 2 ++ ".id") "b" s12).st =
      [] ++ [interactionsChildWithId "b"] := by
  have h := C1_gap_append_amended scorm12codes "LMSSetValue" "b" [] [] 2 s12
    (by decide) rfl (by decide) (by decide) (by decide) (by decide) (by decide)
    (by decide) (by decide)
  exact ⟨by decide, by decide, h.1, h.2.1⟩

end Scorm

namespace Scorm

/-- The gap write the round-trip claim quantifies over: index 1 of an
empty interactions collection. -/
def rGap : OpR :=
  setValueOp scorm12codes "LMSSetValue" false "cmi.interactions.1.id" "a" s12

/-- Reading the same path back after the gap write. -/
def gGap : GetOpR :=
  getValueOp scorm12codes "LMSGetValue" false "cmi.interactions.1.id" rGap.st

/-- C8 counterexample: the value "a" is accepted by the `id` leaf's
validator and the `setValue` on `cmi.interactions.1.id` (a gap index)
reports success — but reading the same path back does not return "a"
(the walker finds no child at index 1, because the new child was appended
at index 0, and hands back the collection object instead of a string). -/
theorem C8_counterexample :
    (VType.identifier 255).accept "a" = true ∧
    rGap.ret = scormTrue ∧
    gGap.ret.asStr = none ∧
    gGap.ret.asStr ≠ some "a" := by
  decide

/-- Top-level field names of a node (used to track the shape of the walk
receiver through an update). -/
def nodeKeys : Node → List String
  | Node.comp fs => fs.map Prod.fst
  | _ => []

/-- Composite discriminator. -/
def isCompN : Node → Bool
  | Node.comp _ => true
  | _ => false

/-- Safe-path predicate for the amended round-trip: the dotted path
resolves through existing composites, every collection index is in range
or equal to the current length with the factory supplying a child (no
gap), and the final segment is a writable leaf whose validator accepts
the value.  The recursion consumes segments exactly as the set walker
does. -/
def SetGetOk (fullPath value : String) : Node → List String → Bool → Bool
  | _, [], _ => false
  | n, [attr], _ =>
      match n with
      | Node.comp fs =>
          match lookupField attr fs with
          | some (Node.leaf vt ro _) => !ro && vt.accept value
          | _ => false
      | _ => false
  | n, attr :: nxt :: rest2, ffi =>
      match n with
      | Node.comp fs =>
          match lookupField attr fs with
          | some (Node.coll cs) =>
              (match jsParseInt nxt with
               | some idx =>
                   if idx < 0 then false
                   else if h : idx.toNat < cs.length then
                     SetGetOk fullPath value (cs.get ⟨idx.toNat, h⟩) rest2 ffi
                   else if idx.toNat = cs.length then
                     match getChildElement12 fullPath value ffi with
                     | some nc => SetGetOk fullPath value nc rest2 true
                     | none => false
                   else false
               | none => false)
          | some (Node.comp fs2) =>
              SetGetOk fullPath value (Node.comp fs2) (nxt :: rest2) ffi
          | _ => false
      | _ => false

/-- Auxiliary: updating an existing field leaves it readable as the new
node. -/
lemma lookupField_updField_self (attr : String) (nv : Node) :
    ∀ fs : List (String × Node), (lookupField attr fs).isSome →
      lookupField attr (updField attr nv fs) = some nv
  | [], h => by simp [lookupField] at h
  | (k, n) :: rest, h => by
      by_cases hk : k = attr
      · simp [lookupField, updField, hk]
      · simp [lookupField, updField, hk] at h ⊢
        exact lookupField_updField_self attr nv rest h

/-- Auxiliary: a field update preserves the field-name list. -/
lemma map_fst_updField (attr : String) (nv : Node) :
    ∀ fs : List (String × Node),
      (updField attr nv fs).map Prod.fst = fs.map Prod.fst
  | [] => rfl
  | (k, n) :: rest => by
      by_cases hk : k = attr <;>
        simp [updField, hk, map_fst_updField attr nv rest]

/-- Auxiliary: in-range read after an in-place list update. -/
lemma get?_set_self : ∀ (l : List Node) (i : Nat) (a : Node),
    i < l.length → (l.set i a).get? i = some a
  | [], _, _, h => absurd h (by simp)
  | _ :: _, 0, _, _ => rfl
  | _ :: xs, i + 1, a, h =>
      get?_set_self xs i a (Nat.lt_of_succ_lt_succ h)

/-- Auxiliary: reading the appended element of a list. -/
lemma get?_append_length : ∀ (l : List Node) (a : Node),
    (l ++ [a]).get? l.length = some a
  | [], _ => rfl
  | _ :: xs, a => get?_append_length xs a

/-- Auxiliary: in-range read as `some` of the indexed element. -/
lemma get?_eq_some_get : ∀ (l : List Node) (i : Nat) (h : i < l.length),
    l.get? i = some (l.get ⟨i, h⟩)
  | _ :: _, 0, _ => rfl
  | _ :: xs, i + 1, h => get?_eq_some_get xs i (Nat.lt_of_succ_lt_succ h)

/-- Auxiliary: out-of-range read. -/
lemma get?_len_le : ∀ (l : List Node) (i : Nat), l.length ≤ i → l.get? i = none
  | [], _, _ => rfl
  | _ :: _, 0, h => absurd h (by simp)
  | _ :: xs, i + 1, h => get?_len_le xs i (Nat.le_of_succ_le_succ h)

end Scorm

namespace Scorm

/-- Auxiliary: on a safe path the set walk succeeds with no exception and
no register write, the receiver stays a composite with the same field
names, and the get walk over the updated receiver returns exactly the
stored value. -/
lemma roundtrip_walk (ec : ErrorCodes) (fullPath value : String) :
    ∀ m : Nat, ∀ segs : List String, segs.length ≤ m →
    ∀ (n : Node) (ffi : Bool), SetGetOk fullPath value n segs ffi = true →
      (setWalk ec fullPath value (JRef.node n) segs ffi).exn = none ∧
      (setWalk ec fullPath value (JRef.node n) segs ffi).ret = scormTrue ∧
      (setWalk ec fullPath value (JRef.node n) segs ffi).thrown = none ∧
      ∃ n2, (setWalk ec fullPath value (JRef.node n) segs ffi).r = JRef.node n2 ∧
        isCompN n2 = true ∧ nodeKeys n2 = nodeKeys n ∧
        (getWalk ec (JRef.node n2) segs).ret = JRef.str value := by
  intro m
  induction m with
  | zero =>
      intro segs hle n ffi hok
      have hnil : segs = [] := List.length_eq_zero.mp (Nat.le_zero.mp hle)
      subst hnil
      simp [SetGetOk] at hok
  | succ m ih =>
      intro segs hle n ffi hok
      rcases segs with _ | ⟨attr, _ | ⟨nxt, rest2⟩⟩
      · simp [SetGetOk] at hok
      · -- final segment
        cases n with
        | leaf vt ro v0 => simp [SetGetOk] at hok
        | coll cs => simp [SetGetOk] at hok
        | comp fs =>
            cases hlk : lookupField attr fs with
            | none => simp [SetGetOk, hlk] at hok
            | some child =>
                cases child with
                | comp fs2 => simp [SetGetOk, hlk] at hok
                | coll cs => simp [SetGetOk, hlk] at hok
                | leaf vt ro v0 =>
                    simp [SetGetOk, hlk] at hok
                    obtain ⟨hro, hacc⟩ := hok
                    subst hro
                    have hprop : hasPropJ (JRef.node (Node.comp fs)) attr = true := by
                      simp [hasPropJ, hlk]
                    have hassign : assignJ ec (JRef.node (Node.comp fs)) attr value =
                        Except.ok (JRef.node
                          (Node.comp (updField attr (Node.leaf vt false value) fs))) := by
                      simp [assignJ, hlk, hacc]
                    have hlk2 : lookupField attr
                        (updField attr (Node.leaf vt false value) fs) =
                        some (Node.leaf vt false value) :=
                      lookupField_updField_self attr _ fs (by simp [hlk])
                    refine ⟨by simp [setWalk, hprop, hassign],
                      by simp [setWalk, hprop, hassign],
                      by simp [setWalk, hprop, hassign],
                      ⟨Node.comp (updField attr (Node.leaf vt false value) fs),
                        by simp [setWalk, hprop, hassign], by simp [isCompN],
                        by simp [nodeKeys, map_fst_updField], ?_⟩⟩
                    by_cases hv0 : value.isEmpty <;>
                      simp [getWalk, hasPropJ, hlk2, getPropJ, JRef.isFalsy,
                        hv0, getEpilogue]
      · -- two or more segments remain
        have hle1 : (nxt :: rest2).length ≤ m := by
          simp at hle ⊢
          omega
        have hle2 : rest2.length ≤ m := by
          simp at hle ⊢
          omega
        cases n with
        | leaf vt ro v0 => simp [SetGetOk] at hok
        | coll cs => simp [SetGetOk] at hok
        | comp fs =>
            cases hlk : lookupField attr fs with
            | none => simp [SetGetOk, hlk] at hok
            | some child =>
                cases child with
                | leaf vt ro v0 => simp [SetGetOk, hlk] at hok
                | comp fs2 =>
                    simp only [SetGetOk, hlk] at hok
                    obtain ⟨he, hr, ht, n2', hrn, hc, hk, hg⟩ :=
                      ih (nxt :: rest2) hle1 (Node.comp fs2) ffi hok
                    have hlk2 : lookupField attr (updField attr n2' fs) = some n2' :=
                      lookupField_updField_self attr _ fs (by simp [hlk])
                    cases n2' with
                    | leaf vt2 ro2 vv => simp [isCompN] at hc
                    | coll cs2 => simp [isCompN] at hc
                    | comp fs2' =>
                        refine ⟨by simp [setWalk, getPropJ, hlk, JRef.isFalsy, he],
                          by simp [setWalk, getPropJ, hlk, JRef.isFalsy, hr],
                          by simp [setWalk, getPropJ, hlk, JRef.isFalsy, ht],
                          ⟨Node.comp (updField attr (Node.comp fs2') fs),
                            by simp [setWalk, getPropJ, hlk, JRef.isFalsy, hrn, setPropJ],
                            by simp [isCompN],
                            by simp [nodeKeys, map_fst_updField],
                            by simp [getWalk, getPropJ, hlk2, JRef.isFalsy, hg]⟩⟩
                | coll cs =>
                    simp only [SetGetOk, hlk] at hok
                    cases hpi : jsParseInt nxt with
                    | none => simp [hpi] at hok
                    | some idx =>
                        simp only [hpi] at hok
                        by_cases hneg : idx < 0
                        · rw [if_pos hneg] at hok
                          exact absurd hok (by simp)
                        · rw [if_neg hneg] at hok
                          by_cases hlt : idx.toNat < cs.length
                          · rw [dif_pos hlt] at hok
                            obtain ⟨he, hr, ht, n2', hrn, hc, hk, hg⟩ :=
                              ih rest2 hle2 (cs.get ⟨idx.toNat, hlt⟩) ffi hok
                            simp only [List.get_eq_getElem] at he hr ht hrn hk hg
                            have hgi : listGetI cs idx = some cs[idx.toNat] := by
                              simp [listGetI, hneg]
                            have hlk2 : lookupField attr
                                (updField attr (Node.coll (listSetI cs idx n2')) fs) =
                                some (Node.coll (listSetI cs idx n2')) :=
                              lookupField_updField_self attr _ fs (by simp [hlk])
                            have hset : listGetI (listSetI cs idx n2') idx = some n2' := by
                              simpa [listGetI, listSetI, hneg] using
                                get?_set_self cs idx.toNat n2' hlt
                            refine ⟨by simp [setWalk, getPropJ, hlk, JRef.isFalsy, hpi, hgi, he],
                              by simp [setWalk, getPropJ, hlk, JRef.isFalsy, hpi, hgi, hr],
                              by simp [setWalk, getPropJ, hlk, JRef.isFalsy, hpi, hgi, ht],
                              ⟨Node.comp (updField attr (Node.coll (listSetI cs idx n2')) fs),
                                by simp [setWalk, getPropJ, hlk, JRef.isFalsy, hpi, hgi,
                                  hrn, setPropJ],
                                by simp [isCompN],
                                by simp [nodeKeys, map_fst_updField],
                                by simp [getWalk, getPropJ, hlk2, JRef.isFalsy, hpi,
                                  hset, hg]⟩⟩
                          · rw [dif_neg hlt] at hok
                            by_cases heq : idx.toNat = cs.length
                            · rw [if_pos heq] at hok
                              cases hfc : getChildElement12 fullPath value ffi with
                              | none => simp [hfc] at hok
                              | some nc =>
                                  simp only [hfc] at hok
                                  obtain ⟨he, hr, ht, n2', hrn, hc, hk, hg⟩ :=
                                    ih rest2 hle2 nc true hok
                                  have hgi : listGetI cs idx = none := by
                                    simp [listGetI, hneg]
                                    exact Nat.le_of_eq heq.symm
                                  have hlk2 : lookupField attr
                                      (updField attr (Node.coll (cs ++ [n2'])) fs) =
                                      some (Node.coll (cs ++ [n2'])) :=
                                    lookupField_updField_self attr _ fs (by simp [hlk])
                                  have happ : listGetI (cs ++ [n2']) idx = some n2' := by
                                    simp [listGetI, hneg, heq]
                                  refine ⟨by simp [setWalk, getPropJ, hlk, JRef.isFalsy,
                                      hpi, hgi, hfc, he],
                                    by simp [setWalk, getPropJ, hlk, JRef.isFalsy,
                                      hpi, hgi, hfc, hr],
                                    by simp [setWalk, getPropJ, hlk, JRef.isFalsy,
                                      hpi, hgi, hfc, ht],
                                    ⟨Node.comp (updField attr (Node.coll (cs ++ [n2'])) fs),
                                      by simp [setWalk, getPropJ, hlk, JRef.isFalsy,
                                        hpi, hgi, hfc, hrn, setPropJ],
                                      by simp [isCompN],
                                      by simp [nodeKeys, map_fst_updField],
                                      by simp [getWalk, getPropJ, hlk2, JRef.isFalsy,
                                        hpi, happ, hg]⟩⟩
                            · rw [if_neg heq] at hok
                              exact absurd hok (by simp)

end Scorm

namespace Scorm

/-- Auxiliary: `setValue` never changes the lifecycle state. -/
lemma setValueOp_currentState (ec : ErrorCodes) (cb : String) (ct : Bool)
    (e v : String) (s : APIState) :
    (setValueOp ec cb ct e v s).st.currentState = s.currentState := by
  by_cases h1 : s.currentState = SessionState.notInitialized
  · simp [setValueOp, checkState, h1, apply_ite]
  · by_cases h2 : ct ∧ s.currentState = SessionState.terminated
    · simp [setValueOp, checkState, h1, h2, apply_ite]
    · simp [setValueOp, checkState, h1, h2, apply_ite]

/-- C8 amended: the set-then-get round trip holds for every path that is
SAFE for the walkers — it resolves through existing composites, every
collection index is in range or extends the collection by exactly one
(with the factory supplying the child), and it ends in a writable leaf
whose validator accepts the value.  The counterexample forces exactly the
in-range restriction: a gap index makes `setValue` succeed by appending
at the END, after which `getValue` on the same path cannot see the
value. -/
theorem C8_roundtrip_amended (ec : ErrorCodes) (cb1 cb2 p v : String)
    (s : APIState)
    (hst : s.currentState = SessionState.stInitialized)
    (hne : p.isEmpty = false)
    (hok : SetGetOk p v (Node.comp [("cmi", s.cmi)]) (jsSplitChar '.' p) false = true) :
    (setValueOp ec cb1 false p v s).ret = scormTrue ∧
    (getValueOp ec cb2 false p (setValueOp ec cb1 false p v s).st).ret = JRef.str v := by
  obtain ⟨he, hr, ht, n2, hrn, hc, hk, hg⟩ :=
    roundtrip_walk ec p v (jsSplitChar '.' p).length (jsSplitChar '.' p) le_rfl
      (Node.comp [("cmi", s.cmi)]) false hok
  have hni : s.currentState ≠ SessionState.notInitialized := by
    rw [hst]
    intro hcon
    cases hcon
  cases n2 with
  | leaf vt ro v0 => simp [isCompN] at hc
  | coll cs => simp [isCompN] at hc
  | comp fs2 =>
      simp only [nodeKeys] at hk
      rcases fs2 with _ | ⟨⟨k1, x⟩, rest⟩
      · simp at hk
      · simp at hk
        obtain ⟨hk1, hrest⟩ := hk
        subst hk1
        subst hrest
        have hw : setCMIValue12 ec s.cmi p v =
            setWalk ec p v (JRef.node (Node.comp [("cmi", s.cmi)]))
              (jsSplitChar '.' p) false := by
          rw [setCMIValue12, if_neg (by simp [hne])]
        have hWe : (setCMIValue12 ec s.cmi p v).exn = none := by
          rw [hw]
          exact he
        have hWr : (setCMIValue12 ec s.cmi p v).ret = scormTrue := by
          rw [hw]
          exact hr
        have hWt : (setCMIValue12 ec s.cmi p v).thrown = none := by
          rw [hw]
          exact ht
        have hWrn : (setCMIValue12 ec s.cmi p v).r =
            JRef.node (Node.comp [("cmi", x)]) := by
          rw [hw]
          exact hrn
        have hcmi2 : (setCMIValue12 ec s.cmi p v).cmiOf s.cmi = x := by
          simp [SetR.cmiOf, hWrn, lookupField]
        have hret : (setValueOp ec cb1 false p v s).ret = scormTrue := by
          simp [setValueOp, checkState, hni, hWe, hWr, apply_ite]
        have hcmiSt : (setValueOp ec cb1 false p v s).st.cmi = x := by
          simp [setValueOp, checkState, hni, hWe, hcmi2, apply_ite]
        have hst2 : (setValueOp ec cb1 false p v s).st.currentState =
            SessionState.stInitialized := by
          rw [setValueOp_currentState, hst]
        have hni2 : (setValueOp ec cb1 false p v s).st.currentState ≠
            SessionState.notInitialized := by
          rw [hst2]
          intro hcon
          cases hcon
        have hg2 : (getCMIValue12 ec x p).ret = JRef.str v := by
          rw [getCMIValue12, if_neg (by simp [hne])]
          exact hg
        refine ⟨hret, ?_⟩
        simp [getValueOp, checkState, hni2, hcmiSt, hg2]

/-- C8 witness: the amended round trip applied at the concrete path
`cmi.core.score.raw` with value "80" on a fresh initialized session. -/
theorem C8_roundtrip_amended_witness :
    s12.currentState = SessionState.stInitialized ∧
    ("cmi.core.score.raw".isEmpty = false) ∧
    SetGetOk "cmi.core.score.raw" "80" (Node.comp [("cmi", s12.cmi)])
      (jsSplitChar '.' "cmi.core.score.raw") false = true ∧
    (setValueOp scorm12codes "LMSSetValue" false "cmi.core.score.raw" "80" s12).ret
      = scormTrue ∧
    (getValueOp scorm12codes "LMSGetValue" false "cmi.core.score.raw"
        (setValueOp scorm12codes "LMSSetValue" false "cmi.core.score.raw" "80"
          s12).st).ret = JRef.str "80" := by
  have h := C8_roundtrip_amended scorm12codes "LMSSetValue" "LMSGetValue"
    "cmi.core.score.raw" "80" s12 (by decide) (by decide) (by decide)
  exact ⟨by decide, by decide, by decide, h.1, h.2⟩

end Scorm
